import Mathlib

/-!
Verification development for the PR-cleanup chat bot.

The bot (main variant, four reactions) keeps two in-memory registries:
a deletion-timer map keyed by channel:ts and an in-flight guard set of
keys currently being processed.  Handlers for reaction_added and
reaction_removed events read and mutate these registries and call out to
the chat platform.  We embed the handlers as pure functions: each
external API call is a suspension point whose response is supplied by an
oracle record (an Except value models a call that may throw), and every
outbound call is recorded in an effect trace.
-/

/-- Key of both registries: the composite channel:ts string key. -/
structure Key where
  channel : String
  ts : String
  deriving DecidableEq, Repr

/-- A chat message as the handlers see it: bot id and user are optional
fields, text defaults to empty when absent. -/
structure SlackMessage where
  bot_id : Option String
  user : Option String
  text : String
  ts : String
  deriving DecidableEq, Repr

/-- Entry of the deletion-timer map: timer handle plus the optional
timestamp of the warning message. -/
structure DeletionTimer where
  timeoutId : Nat
  warnTs : Option String
  deriving DecidableEq, Repr

/-- One reaction entry as returned by the reactions query. -/
structure ReactionEntry where
  name : String
  deriving DecidableEq, Repr

/-- The mutable module-level state of the bot process. -/
structure BotState where
  deletionTimers : List (Key × DeletionTimer)
  processingReactions : List Key
  myBotId : Option String
  deriving DecidableEq, Repr

/-- Outbound calls and instrumented registry operations, recorded in
order of execution.  A guardDelete records whether the key was actually
present at deletion time. -/
inductive Effect where
  | fetchHistory (channel ts : String)
  | postMessage (channel : String) (threadTs : Option String) (text : String)
  | fetchReplies (channel ts : String)
  | getReactions (channel ts : String)
  | chatDelete (channel ts : String)
  | clearTimeout (id : Nat)
  | setTimeout (id : Nat)
  | logError
  | guardDelete (k : Key) (effective : Bool)
  deriving DecidableEq, Repr

/- ----------------------------
   Registry operations (Map and Set semantics)
----------------------------- -/

/-- Set.add: inserting an element already present leaves the set as is. -/
def guardAdd (g : List Key) (k : Key) : List Key :=
  if k ∈ g then g else k :: g

/-- Set.delete: removes the element if present. -/
def guardRemove (g : List Key) (k : Key) : List Key :=
  g.filter (fun x => decide (x ≠ k))

/-- Map.has on an association list. -/
def mapHas (m : List (Key × DeletionTimer)) (k : Key) : Bool :=
  decide (k ∈ m.map Prod.fst)

/-- Map.get on an association list. -/
def mapGet (m : List (Key × DeletionTimer)) (k : Key) : Option DeletionTimer :=
  (m.find? (fun p => decide (p.1 = k))).map Prod.snd

/-- Map.set on an association list: replaces any binding of the key. -/
def mapSet (m : List (Key × DeletionTimer)) (k : Key) (v : DeletionTimer) :
    List (Key × DeletionTimer) :=
  m.filter (fun p => decide (p.1 ≠ k)) ++ [(k, v)]

/-- Map.delete on an association list. -/
def mapDelete (m : List (Key × DeletionTimer)) (k : Key) :
    List (Key × DeletionTimer) :=
  m.filter (fun p => decide (p.1 ≠ k))

/-- The at-most-one-entry-per-key invariant of the timer map. -/
def keysNodup (m : List (Key × DeletionTimer)) : Prop :=
  (m.map Prod.fst).Nodup

/- ----------------------------
   Constants (REACTIONS and MESSAGES objects of the source)
----------------------------- -/

def REACTIONS.COMMENT : String := "speech_balloon"

def REACTIONS.APPROVED : String := "white_check_mark"

def REACTIONS.MERGED : String := "merged"

def REACTIONS.UPDATED : String := "repeat"

def MESSAGES.COMMENT_OWN (authorId reviewerId : String) : String :=
  "<@" ++ authorId ++ ">, a comment or two was left on your PR by <@" ++ reviewerId ++ ">."

def MESSAGES.COMMENT_OTHER : String :=
  "Someone made a comment or two on this PR."

def MESSAGES.APPROVED_OWN (id : String) : String :=
  "<@" ++ id ++ ">, your PR has been approved, time to ship it! :shipit:"

def MESSAGES.APPROVED_OTHER : String :=
  "This PR has been approved, time to ship it! :shipit:"

def MESSAGES.MERGED_WARNING : String :=
  "This PR entry will be deleted in 30 seconds. Remove the :merged: reaction to cancel."

def MESSAGES.MERGED_WARNING_OWN (id : String) : String :=
  "<@" ++ id ++ "> heads up - this PR entry will be deleted in 30 seconds. Remove the :merged: reaction to cancel."

/- ----------------------------
   Text helpers: complexity formatting and pattern extraction
----------------------------- -/

/-- Model of String.prototype.toLowerCase restricted to the ASCII range
used by this bot. -/
def lowerStr (s : String) : String :=
  String.mk (s.toList.map Char.toLower)

/-- formatComplexity: a falsy level (absent or empty) renders Unknown;
otherwise the lowercased level selects the rendering. -/
def formatComplexity : Option String → String
  | none => "⚪ *Unknown*"
  | some level =>
    if level = "" then "⚪ *Unknown*"
    else
      let low := lowerStr level
      if low = "ez" then ":ez:"
      else if low = "medium" then "🟨 *Medium*"
      else if low = "large" then "🟥 *Large*"
      else "⚪ *Unknown*"

/-- Case-insensitive literal match: consumes the pattern from the front
of the input, returning the rest. -/
def dropLitCI : List Char → List Char → Option (List Char)
  | [], rest => some rest
  | _ :: _, [] => none
  | p :: ps, c :: cs => if p.toLower = c.toLower then dropLitCI ps cs else none

/-- Case-sensitive literal match. -/
def dropLitCS : List Char → List Char → Option (List Char)
  | [], rest => some rest
  | _ :: _, [] => none
  | p :: ps, c :: cs => if p = c then dropLitCS ps cs else none

/-- ASCII fragment of the JS regex class backslash-s (the texts this bot
matches contain only ASCII whitespace). -/
def isJsWs (c : Char) : Bool :=
  decide (c = ' ') || decide (c = '\t') || decide (c = '\n') || decide (c = '\r') ||
    decide (c = '\x0b') || decide (c = '\x0c')

/-- The class [A-Z0-9] under the i flag: letters of either case or digits. -/
def isAuthorIdChar (c : Char) : Bool :=
  (decide ('A' ≤ c) && decide (c ≤ 'Z')) || (decide ('a' ≤ c) && decide (c ≤ 'z')) ||
    (decide ('0' ≤ c) && decide (c ≤ '9'))

/-- The class [A-Z0-9] without the i flag. -/
def isReviewerIdChar (c : Char) : Bool :=
  (decide ('A' ≤ c) && decide (c ≤ 'Z')) || (decide ('0' ≤ c) && decide (c ≤ '9'))

/-- One anchored attempt of the author regex (Author: backslash-s* <@
capture of [A-Z0-9]+ then >), i flag set.  The quantified classes do not
overlap the literals that follow them, so greedy matching is maximal
munch and the match is deterministic. -/
def matchAuthorAt (s : List Char) : Option String :=
  match dropLitCI ("Author:".toList) s with
  | none => none
  | some r1 =>
    let r2 := r1.dropWhile isJsWs
    match dropLitCI ("<@".toList) r2 with
    | none => none
    | some r3 =>
      let idChars := r3.takeWhile isAuthorIdChar
      let r4 := r3.dropWhile isAuthorIdChar
      if idChars ≠ [] ∧ r4.head? = some '>' then some (String.mk idChars) else none

/-- Leftmost match of the author regex over the whole text. -/
def findAuthor : List Char → Option String
  | [] => none
  | c :: cs =>
    match matchAuthorAt (c :: cs) with
    | some r => some r
    | none => findAuthor cs

/-- getAuthorIdFromText: first match of the author pattern, or null. -/
def getAuthorIdFromText (text : String) : Option String :=
  findAuthor text.toList

/-- One anchored attempt of the reviewer regex (literal then <@ capture
of [A-Z0-9]+ then >), case sensitive. -/
def matchReviewerAt (s : List Char) : Option String :=
  match dropLitCS ("left on your PR by <@".toList) s with
  | none => none
  | some r1 =>
    let idChars := r1.takeWhile isReviewerIdChar
    let r2 := r1.dropWhile isReviewerIdChar
    if idChars ≠ [] ∧ r2.head? = some '>' then some (String.mk idChars) else none

/-- Leftmost match of the reviewer regex over the whole text. -/
def findReviewer : List Char → Option String
  | [] => none
  | c :: cs =>
    match matchReviewerAt (c :: cs) with
    | some r => some r
    | none => findReviewer cs

/-- The reviewer set built while scanning thread replies: JS Set keeps
insertion order and deduplicates. -/
def collectReviewers (msgs : List SlackMessage) : List String :=
  msgs.foldl
    (fun acc m =>
      match findReviewer m.text.toList with
      | some r => if r ∈ acc then acc else acc ++ [r]
      | none => acc)
    []

/-- The announcement text posted by the /pr command handler. -/
def prAnnouncementText (prUrl userId complexity : String) : String :=
  "Link: <" ++ prUrl ++ "|Link to PR on GitHub>\nAuthor: <@" ++ userId ++
    ">\nComplexity: " ++ complexity

/- ----------------------------
   reaction_added handler
----------------------------- -/

/-- Responses of the awaited calls the added-handler may make after the
history fetch: the single message post of the taken branch (its result
is the posted ts, optional), the thread-replies fetch of the
update-request branch, and the timer handle returned by setTimeout. -/
structure AddedOracle where
  post : Except Unit (Option String)
  replies : Except Unit (List SlackMessage)
  timerId : Nat

/-- Whether an Except response models a thrown call. -/
def isError {α : Type} : Except Unit α → Bool
  | Except.error _ => true
  | Except.ok _ => false

/-- Body of the inner try after the history fetch resolved: dispatches
on the reaction, reads the guard and the timer map, and returns the
updated timer map (the only registry this body writes), the effect
trace, and whether a call threw.  The message item fields give the key. -/
def addedCore (timers : List (Key × DeletionTimer)) (guard : List Key)
    (myId : Option String) (reaction user channel ts : String)
    (histRes : Except Unit (Option SlackMessage)) (o : AddedOracle) :
    List (Key × DeletionTimer) × List Effect × Bool :=
  let key : Key := ⟨channel, ts⟩
  let trH : List Effect := [Effect.fetchHistory channel ts]
  match histRes with
  | Except.error _ => (timers, trH, true)
  | Except.ok none => (timers, trH, false)
  | Except.ok (some message) =>
    if message.bot_id ≠ myId then (timers, trH, false)
    else
      let authorId := getAuthorIdFromText message.text
      if reaction = REACTIONS.COMMENT then
        let text :=
          match authorId with
          | some a => MESSAGES.COMMENT_OWN a user
          | none => MESSAGES.COMMENT_OTHER
        (timers, trH ++ [Effect.postMessage channel (some ts) text], isError o.post)
      else if reaction = REACTIONS.APPROVED then
        let text :=
          match authorId with
          | some a => MESSAGES.APPROVED_OWN a
          | none => MESSAGES.APPROVED_OTHER
        (timers, trH ++ [Effect.postMessage channel (some ts) text], isError o.post)
      else if reaction = REACTIONS.UPDATED then
        match o.replies with
        | Except.error _ => (timers, trH ++ [Effect.fetchReplies channel ts], true)
        | Except.ok msgs =>
          let reviewers := collectReviewers msgs
          if reviewers = [] then
            (timers,
             trH ++ [Effect.fetchReplies channel ts,
               Effect.postMessage channel (some ts)
                 "Updates were made, but no reviewers were detected."],
             isError o.post)
          else
            let mentions :=
              String.intercalate " " (reviewers.map (fun id => "<@" ++ id ++ ">"))
            (timers,
             trH ++ [Effect.fetchReplies channel ts,
               Effect.postMessage channel (some ts)
                 (mentions ++ " - The PR author has updated the PR - please review again")],
             isError o.post)
      else if reaction = REACTIONS.MERGED then
        if key ∉ guard then (timers, trH, false)
        else if mapHas timers key then (timers, trH, false)
        else
          let warnText :=
            match authorId with
            | some a => MESSAGES.MERGED_WARNING_OWN a
            | none => MESSAGES.MERGED_WARNING
          match o.post with
          | Except.error _ =>
            (timers, trH ++ [Effect.postMessage channel (some ts) warnText], true)
          | Except.ok warnTs =>
            (mapSet timers key ⟨o.timerId, warnTs⟩,
             trH ++ [Effect.postMessage channel (some ts) warnText,
               Effect.setTimeout o.timerId],
             false)
      else (timers, trH, false)

/-- Start of the added-handler for a message item, up to the first
suspension point: the key is added to the in-flight guard and the
history fetch is issued. -/
def reactionAddedStart (s : BotState) (channel ts : String) : BotState :=
  { s with processingReactions := guardAdd s.processingReactions ⟨channel, ts⟩ }

/-- Rest of the added-handler once the history fetch resolved: runs the
inner body, then the finally clause releases the guard entry, and on a
thrown error the outer catch logs and deletes the key again (a no-op
since the finally already removed it). -/
def reactionAddedResume (s : BotState) (reaction user channel ts : String)
    (histRes : Except Unit (Option SlackMessage)) (o : AddedOracle) :
    BotState × List Effect :=
  let key : Key := ⟨channel, ts⟩
  let r := addedCore s.deletionTimers s.processingReactions s.myBotId
    reaction user channel ts histRes o
  let eff1 := Effect.guardDelete key (decide (key ∈ s.processingReactions))
  let guard2 := guardRemove s.processingReactions key
  if r.2.2 then
    let eff2 := Effect.guardDelete key (decide (key ∈ guard2))
    let guard3 := guardRemove guard2 key
    (⟨r.1, guard3, s.myBotId⟩, r.2.1 ++ [eff1, Effect.logError, eff2])
  else
    (⟨r.1, guard2, s.myBotId⟩, r.2.1 ++ [eff1])

/-- A full uninterleaved pass of the added-handler on a message item. -/
def reactionAddedFull (s : BotState) (reaction user channel ts : String)
    (histRes : Except Unit (Option SlackMessage)) (o : AddedOracle) :
    BotState × List Effect :=
  reactionAddedResume (reactionAddedStart s channel ts) reaction user channel ts histRes o

/- ----------------------------
   reaction_removed handler
----------------------------- -/

/-- The removed-handler on a message item: only the merge signal is
handled; a key still in the in-flight guard is removed from it to abort
the in-flight scheduling; otherwise an armed timer is cancelled, its
entry removed, and the warning message best-effort deleted (a failed
delete is logged). -/
def reactionRemoved (s : BotState) (reaction channel ts : String)
    (delRes : Except Unit Unit) : BotState × List Effect :=
  if reaction ≠ REACTIONS.MERGED then (s, [])
  else
    let key : Key := ⟨channel, ts⟩
    if key ∈ s.processingReactions then
      ({ s with processingReactions := guardRemove s.processingReactions key }, [])
    else
      match mapGet s.deletionTimers key with
      | none => (s, [])
      | some td =>
        let s2 := { s with deletionTimers := mapDelete s.deletionTimers key }
        let trDel : List Effect :=
          match td.warnTs with
          | some w =>
            Effect.chatDelete channel w ::
              (match delRes with
               | Except.error _ => [Effect.logError]
               | Except.ok _ => [])
          | none => []
        (s2, Effect.clearTimeout td.timeoutId :: trDel)

/- ----------------------------
   Deferred cleanup task (the setTimeout callback)
----------------------------- -/

/-- Responses of the calls the deferred cleanup task makes: the
reactions re-query (the absent-message case folds to the empty list as
in the source), the thread-replies fetch, the per-reply delete outcomes,
and the anchor delete.  The two warning deletes have their errors
swallowed without logging, so their outcomes are immaterial. -/
structure CleanupOracle where
  reactionsRes : Except Unit (List ReactionEntry)
  repliesRes : Except Unit (List SlackMessage)
  replyDelOk : String → Bool
  anchorDel : Except Unit Unit

/-- The thread-cleanup step: fetch replies and delete every reply
authored by this bot identity, skipping the anchor; per-reply failures
and a failed fetch are logged and do not propagate. -/
def replyCleanupTrace (myId : Option String) (channel ts : String)
    (repliesRes : Except Unit (List SlackMessage)) (delOk : String → Bool) :
    List Effect :=
  match repliesRes with
  | Except.error _ => [Effect.fetchReplies channel ts, Effect.logError]
  | Except.ok msgs =>
    Effect.fetchReplies channel ts ::
      msgs.flatMap (fun m =>
        if m.ts = ts then []
        else if m.bot_id = myId ∨ m.user = myId then
          Effect.chatDelete channel m.ts ::
            (if delOk m.ts then [] else [Effect.logError])
        else [])

/-- Body of the try block of the deferred cleanup task: trace of calls
and whether an uncaught error escaped to the outer catch. -/
def cleanupBody (myId : Option String) (channel ts : String)
    (warnTs : Option String) (o : CleanupOracle) : List Effect × Bool :=
  match o.reactionsRes with
  | Except.error _ => ([Effect.getReactions channel ts], true)
  | Except.ok reactions =>
    let trH : List Effect := [Effect.getReactions channel ts]
    let stillHasMerged := reactions.any (fun r => decide (r.name = REACTIONS.MERGED))
    if stillHasMerged = false then
      match warnTs with
      | some w => (trH ++ [Effect.chatDelete channel w], false)
      | none => (trH, false)
    else
      let trThread := replyCleanupTrace myId channel ts o.repliesRes o.replyDelOk
      match o.anchorDel with
      | Except.error _ => (trH ++ trThread ++ [Effect.chatDelete channel ts], true)
      | Except.ok _ =>
        let trWarn : List Effect :=
          match warnTs with
          | some w => [Effect.chatDelete channel w]
          | none => []
        (trH ++ trThread ++ [Effect.chatDelete channel ts] ++ trWarn, false)

/-- The deferred cleanup task for a key: runs the body; the catch logs
an escaped error and the finally always removes the timer-map entry. -/
def cleanupFire (s : BotState) (channel ts : String) (warnTs : Option String)
    (o : CleanupOracle) : BotState × List Effect :=
  let r := cleanupBody s.myBotId channel ts warnTs o
  let s2 := { s with deletionTimers := mapDelete s.deletionTimers ⟨channel, ts⟩ }
  (s2, r.1 ++ (if r.2 then [Effect.logError] else []))

/- ----------------------------
   Startup configuration check
----------------------------- -/

/-- JS truthiness of an optional environment variable: absent and empty
both read as falsy. -/
def envTruthy : Option String → Bool
  | none => false
  | some s => !(decide (s = ""))

/-- The startup guard: the process exits when either required secret is
falsy. -/
def startupExits (token signing : Option String) : Bool :=
  !(envTruthy token) || !(envTruthy signing)

/-- Startup proceeds exactly when the guard does not exit. -/
def startupProceeds (token signing : Option String) : Bool :=
  !(startupExits token signing)

/- ----------------------------
   Trace helper predicates
----------------------------- -/

def isPostEffect : Effect → Bool
  | Effect.postMessage _ _ _ => true
  | _ => false

def isSetTimeoutEffect : Effect → Bool
  | Effect.setTimeout _ => true
  | _ => false

def isGuardDeleteEffect : Effect → Bool
  | Effect.guardDelete _ _ => true
  | _ => false

/-- Number of guard deletions in a trace that actually removed the key. -/
def effectiveGuardDeletes (tr : List Effect) (k : Key) : Nat :=
  (tr.filter (fun e =>
    match e with
    | Effect.guardDelete k2 eff => decide (k2 = k) && eff
    | _ => false)).length

/-- A set membership check on hay as a contiguous character run. -/
def startsWithList : List Char → List Char → Bool
  | [], _ => true
  | _ :: _, [] => false
  | a :: as, b :: bs => decide (a = b) && startsWithList as bs

/-- Whether the needle occurs contiguously in the hay. -/
def containsSeq (needle : List Char) : List Char → Bool
  | [] => needle.isEmpty
  | c :: t => startsWithList needle (c :: t) || containsSeq needle t

/-- Substring containment on strings. -/
def containsSubstr (hay needle : String) : Bool :=
  containsSeq needle.toList hay.toList

/- ----------------------------
   Helper lemmas about the registries
----------------------------- -/

theorem mem_guardAdd (g : List Key) (k : Key) : k ∈ guardAdd g k := by
  unfold guardAdd
  split
  · assumption
  · exact List.mem_cons_self _ _

theorem not_mem_guardRemove (g : List Key) (k : Key) : k ∉ guardRemove g k := by
  unfold guardRemove
  simp

theorem guardRemove_of_not_mem (g : List Key) (k : Key) (h : k ∉ g) :
    guardRemove g k = g := by
  unfold guardRemove
  refine List.filter_eq_self.2 ?_
  intro x hx
  simp only [decide_eq_true_eq]
  intro he
  exact h (he ▸ hx)

theorem mapHas_mapDelete (m : List (Key × DeletionTimer)) (k : Key) :
    mapHas (mapDelete m k) k = false := by
  unfold mapHas mapDelete
  simp

theorem keysNodup_mapDelete (m : List (Key × DeletionTimer)) (k : Key)
    (h : keysNodup m) : keysNodup (mapDelete m k) := by
  unfold keysNodup mapDelete
  exact ((List.filter_sublist m).map Prod.fst).nodup h

theorem keysNodup_mapSet (m : List (Key × DeletionTimer)) (k : Key)
    (v : DeletionTimer) (h : keysNodup m) : keysNodup (mapSet m k v) := by
  unfold keysNodup mapSet
  rw [List.map_append, List.nodup_append]
  refine ⟨((List.filter_sublist m).map Prod.fst).nodup h, List.nodup_singleton k, ?_⟩
  intro x hx hk
  simp only [List.map_cons, List.map_nil, List.mem_singleton] at hk
  subst hk
  simp only [List.mem_map, List.mem_filter, decide_eq_true_eq] at hx
  obtain ⟨p, ⟨_, hne⟩, hfst⟩ := hx
  exact hne hfst

/- ----------------------------
   Shape lemmas for the added-handler core
----------------------------- -/

theorem addedCore_error (timers : List (Key × DeletionTimer)) (guard : List Key)
    (myId : Option String) (reaction user channel ts : String) (u : Unit) (o : AddedOracle) :
    addedCore timers guard myId reaction user channel ts (Except.error u) o =
      (timers, [Effect.fetchHistory channel ts], true) := rfl

theorem addedCore_noMessage (timers : List (Key × DeletionTimer)) (guard : List Key)
    (myId : Option String) (reaction user channel ts : String) (o : AddedOracle) :
    addedCore timers guard myId reaction user channel ts (Except.ok none) o =
      (timers, [Effect.fetchHistory channel ts], false) := rfl

theorem addedCore_botMismatch (timers : List (Key × DeletionTimer)) (guard : List Key)
    (myId : Option String) (reaction user channel ts : String) (m : SlackMessage)
    (o : AddedOracle) (hb : m.bot_id ≠ myId) :
    addedCore timers guard myId reaction user channel ts (Except.ok (some m)) o =
      (timers, [Effect.fetchHistory channel ts], false) := by
  simp only [addedCore]
  rw [if_pos hb]

theorem addedCore_merged_guardMiss (timers : List (Key × DeletionTimer)) (guard : List Key)
    (myId : Option String) (user channel ts : String) (m : SlackMessage)
    (o : AddedOracle) (hb : ¬ m.bot_id ≠ myId) (hk : (⟨channel, ts⟩ : Key) ∉ guard) :
    addedCore timers guard myId REACTIONS.MERGED user channel ts (Except.ok (some m)) o =
      (timers, [Effect.fetchHistory channel ts], false) := by
  simp only [addedCore]
  rw [if_neg hb, if_neg (show ¬ (REACTIONS.MERGED = REACTIONS.COMMENT) by decide),
    if_neg (show ¬ (REACTIONS.MERGED = REACTIONS.APPROVED) by decide),
    if_neg (show ¬ (REACTIONS.MERGED = REACTIONS.UPDATED) by decide)]
  rw [if_pos trivial, if_pos hk]

theorem addedCore_merged_dupTimer (timers : List (Key × DeletionTimer)) (guard : List Key)
    (myId : Option String) (user channel ts : String) (m : SlackMessage)
    (o : AddedOracle) (hb : ¬ m.bot_id ≠ myId)
    (hdup : mapHas timers ⟨channel, ts⟩ = true) :
    addedCore timers guard myId REACTIONS.MERGED user channel ts (Except.ok (some m)) o =
      (timers, [Effect.fetchHistory channel ts], false) := by
  simp only [addedCore]
  rw [if_neg hb, if_neg (show ¬ (REACTIONS.MERGED = REACTIONS.COMMENT) by decide),
    if_neg (show ¬ (REACTIONS.MERGED = REACTIONS.APPROVED) by decide),
    if_neg (show ¬ (REACTIONS.MERGED = REACTIONS.UPDATED) by decide)]
  rw [if_pos trivial]
  split
  · rfl
  · simp [hdup]

theorem addedCore_timers_shape (timers : List (Key × DeletionTimer)) (guard : List Key)
    (myId : Option String) (reaction user channel ts : String)
    (histRes : Except Unit (Option SlackMessage)) (o : AddedOracle) :
    (addedCore timers guard myId reaction user channel ts histRes o).1 = timers ∨
      (∃ v, (addedCore timers guard myId reaction user channel ts histRes o).1 =
        mapSet timers ⟨channel, ts⟩ v) := by
  unfold addedCore
  dsimp only
  repeat' split
  all_goals first
    | exact Or.inl rfl
    | exact Or.inr ⟨_, rfl⟩

theorem addedCore_effGD_zero (timers : List (Key × DeletionTimer)) (guard : List Key)
    (myId : Option String) (reaction user channel ts : String)
    (histRes : Except Unit (Option SlackMessage)) (o : AddedOracle) (k : Key) :
    effectiveGuardDeletes
      (addedCore timers guard myId reaction user channel ts histRes o).2.1 k = 0 := by
  unfold addedCore
  dsimp only
  repeat' split
  all_goals simp [effectiveGuardDeletes]

theorem addedCore_merged_abort (timers : List (Key × DeletionTimer)) (guard : List Key)
    (myId : Option String) (user channel ts : String)
    (histRes : Except Unit (Option SlackMessage)) (o : AddedOracle)
    (hk : (⟨channel, ts⟩ : Key) ∉ guard ∨ mapHas timers ⟨channel, ts⟩ = true) :
    (addedCore timers guard myId REACTIONS.MERGED user channel ts histRes o).1 = timers ∧
    ∀ e ∈ (addedCore timers guard myId REACTIONS.MERGED user channel ts histRes o).2.1,
      isPostEffect e = false ∧ isSetTimeoutEffect e = false := by
  cases histRes with
  | error u =>
    rw [addedCore_error]
    exact ⟨rfl, by simp [isPostEffect, isSetTimeoutEffect]⟩
  | ok msg? =>
    cases msg? with
    | none =>
      rw [addedCore_noMessage]
      exact ⟨rfl, by simp [isPostEffect, isSetTimeoutEffect]⟩
    | some m =>
      by_cases hb : m.bot_id ≠ myId
      · rw [addedCore_botMismatch _ _ _ _ _ _ _ _ _ hb]
        exact ⟨rfl, by simp [isPostEffect, isSetTimeoutEffect]⟩
      · rcases hk with hk | hk
        · rw [addedCore_merged_guardMiss _ _ _ _ _ _ _ _ hb hk]
          exact ⟨rfl, by simp [isPostEffect, isSetTimeoutEffect]⟩
        · rw [addedCore_merged_dupTimer _ _ _ _ _ _ _ _ hb hk]
          exact ⟨rfl, by simp [isPostEffect, isSetTimeoutEffect]⟩

theorem effectiveGuardDeletes_append (a b : List Effect) (k : Key) :
    effectiveGuardDeletes (a ++ b) k =
      effectiveGuardDeletes a k + effectiveGuardDeletes b k := by
  simp [effectiveGuardDeletes, List.filter_append]

theorem resume_merged_abort (s : BotState) (user channel ts : String)
    (histRes : Except Unit (Option SlackMessage)) (o : AddedOracle)
    (hk : (⟨channel, ts⟩ : Key) ∉ s.processingReactions ∨
      mapHas s.deletionTimers ⟨channel, ts⟩ = true) :
    (reactionAddedResume s REACTIONS.MERGED user channel ts histRes o).1.deletionTimers =
      s.deletionTimers ∧
    ∀ e ∈ (reactionAddedResume s REACTIONS.MERGED user channel ts histRes o).2,
      isPostEffect e = false ∧ isSetTimeoutEffect e = false := by
  obtain ⟨h1, h2⟩ := addedCore_merged_abort s.deletionTimers s.processingReactions s.myBotId
    user channel ts histRes o hk
  unfold reactionAddedResume
  dsimp only
  split
  all_goals refine ⟨h1, ?_⟩
  all_goals intro e he
  all_goals simp only [List.mem_append, List.mem_cons, List.not_mem_nil, or_false] at he
  · rcases he with he | rfl | rfl | rfl
    · exact h2 e he
    all_goals exact ⟨rfl, rfl⟩
  · rcases he with he | rfl
    · exact h2 e he
    · exact ⟨rfl, rfl⟩

theorem reactionRemoved_inflight (s : BotState) (channel ts : String) (d : Except Unit Unit)
    (h : (⟨channel, ts⟩ : Key) ∈ s.processingReactions) :
    reactionRemoved s REACTIONS.MERGED channel ts d =
      ({ s with processingReactions := guardRemove s.processingReactions ⟨channel, ts⟩ }, []) := by
  unfold reactionRemoved
  rw [if_neg (show ¬ (REACTIONS.MERGED ≠ REACTIONS.MERGED) by decide)]
  dsimp only
  rw [if_pos h]

theorem resume_of_core_noop (s : BotState) (reaction user channel ts : String)
    (histRes : Except Unit (Option SlackMessage)) (o : AddedOracle)
    (hsh : addedCore s.deletionTimers s.processingReactions s.myBotId reaction user channel
        ts histRes o =
      (s.deletionTimers, [Effect.fetchHistory channel ts], false)) :
    (reactionAddedResume s reaction user channel ts histRes o).1.deletionTimers =
      s.deletionTimers ∧
    ∀ e ∈ (reactionAddedResume s reaction user channel ts histRes o).2,
      isPostEffect e = false ∧ isSetTimeoutEffect e = false := by
  unfold reactionAddedResume
  dsimp only
  rw [hsh]
  dsimp only
  rw [if_neg (show ¬ (false = true) by decide)]
  refine ⟨rfl, ?_⟩
  intro e he
  rw [List.mem_append] at he
  rcases he with he | he
  · rw [List.mem_singleton] at he
    subst he
    exact ⟨rfl, rfl⟩
  · rw [List.mem_singleton] at he
    subst he
    exact ⟨rfl, rfl⟩

theorem reactionAddedFull_timers (s : BotState) (reaction user channel ts : String)
    (histRes : Except Unit (Option SlackMessage)) (o : AddedOracle) :
    (reactionAddedFull s reaction user channel ts histRes o).1.deletionTimers =
      (addedCore s.deletionTimers (guardAdd s.processingReactions ⟨channel, ts⟩) s.myBotId
        reaction user channel ts histRes o).1 := by
  unfold reactionAddedFull reactionAddedResume reactionAddedStart
  dsimp only
  split <;> rfl

theorem reactionRemoved_timers_shape (s : BotState) (reaction channel ts : String)
    (d : Except Unit Unit) :
    (reactionRemoved s reaction channel ts d).1.deletionTimers = s.deletionTimers ∨
    (reactionRemoved s reaction channel ts d).1.deletionTimers =
      mapDelete s.deletionTimers ⟨channel, ts⟩ := by
  unfold reactionRemoved
  dsimp only
  repeat' split
  all_goals first | exact Or.inl rfl | exact Or.inr rfl

/- ----------------------------
   Concrete instances used by witnesses and counterexamples
----------------------------- -/

def botState : BotState := ⟨[], [], some "B1"⟩

def botMsg : SlackMessage := ⟨some "B1", none, "Author: <@U1>", "T1"⟩

def otherBotMsg : SlackMessage := ⟨some "B9", none, "Author: <@U1>", "T1"⟩

def timerState : BotState := ⟨[(⟨"C1", "T1"⟩, ⟨5, some "W1"⟩)], [], some "B1"⟩

def undefinedIdState : BotState := ⟨[], [], none⟩

def humanMessage : SlackMessage := ⟨none, some "U9", "just a human message", "T1"⟩

def plainOracle : AddedOracle := ⟨Except.ok (some "W1"), Except.ok [], 7⟩

def quietCleanupOracle : CleanupOracle :=
  ⟨Except.ok [⟨"thumbsup"⟩], Except.ok [], (fun _ => true), Except.ok ()⟩

/- ----------------------------
   Claim theorems
----------------------------- -/

/-- C1: for a merge-signal reaction_added event, if the reaction_removed
handler for the same key runs after the key was added to the in-flight
guard but before the added-handler reaches its guard re-check, the
removal deletes the key from the guard and the added-handler then aborts
on every possible continuation: it posts no warning, schedules no timer,
and leaves the deletion-timer map exactly as it was. -/
theorem C1_removal_before_recheck_prevents_scheduling (s : BotState)
    (user channel ts : String) (histRes : Except Unit (Option SlackMessage))
    (o : AddedOracle) (d : Except Unit Unit) :
    (⟨channel, ts⟩ : Key) ∈ (reactionAddedStart s channel ts).processingReactions ∧
    (⟨channel, ts⟩ : Key) ∉
      (reactionRemoved (reactionAddedStart s channel ts)
        REACTIONS.MERGED channel ts d).1.processingReactions ∧
    (reactionRemoved (reactionAddedStart s channel ts)
      REACTIONS.MERGED channel ts d).2 = [] ∧
    (reactionRemoved (reactionAddedStart s channel ts)
      REACTIONS.MERGED channel ts d).1.deletionTimers = s.deletionTimers ∧
    (∀ e ∈ (reactionAddedResume
        (reactionRemoved (reactionAddedStart s channel ts) REACTIONS.MERGED channel ts d).1
        REACTIONS.MERGED user channel ts histRes o).2,
      isPostEffect e = false ∧ isSetTimeoutEffect e = false) ∧
    (reactionAddedResume
        (reactionRemoved (reactionAddedStart s channel ts) REACTIONS.MERGED channel ts d).1
        REACTIONS.MERGED user channel ts histRes o).1.deletionTimers = s.deletionTimers := by
  have hmem : (⟨channel, ts⟩ : Key) ∈ (reactionAddedStart s channel ts).processingReactions :=
    mem_guardAdd _ _
  have hrm := reactionRemoved_inflight (reactionAddedStart s channel ts) channel ts d hmem
  rw [hrm]
  have hnot : (⟨channel, ts⟩ : Key) ∉
      guardRemove (reactionAddedStart s channel ts).processingReactions ⟨channel, ts⟩ :=
    not_mem_guardRemove _ _
  have habort := resume_merged_abort
    ({ reactionAddedStart s channel ts with
        processingReactions :=
          guardRemove (reactionAddedStart s channel ts).processingReactions ⟨channel, ts⟩ })
    user channel ts histRes o (Or.inl hnot)
  exact ⟨hmem, hnot, rfl, rfl, habort.2, habort.1⟩

/-- C2: the deletion-timer map holds at most one entry per key (every
handler preserves distinctness of keys), and a merge-signal
reaction_added event for a key that already has an entry is a no-op: the
map is unchanged and the handler neither posts a warning nor schedules a
timer. -/
theorem C2_at_most_one_pending_deletion :
    (∀ (s : BotState) (reaction user channel ts : String)
        (histRes : Except Unit (Option SlackMessage)) (o : AddedOracle),
      keysNodup s.deletionTimers →
      keysNodup (reactionAddedFull s reaction user channel ts histRes o).1.deletionTimers) ∧
    (∀ (s : BotState) (reaction channel ts : String) (d : Except Unit Unit),
      keysNodup s.deletionTimers →
      keysNodup (reactionRemoved s reaction channel ts d).1.deletionTimers) ∧
    (∀ (s : BotState) (channel ts : String) (w : Option String) (o : CleanupOracle),
      keysNodup s.deletionTimers →
      keysNodup (cleanupFire s channel ts w o).1.deletionTimers) ∧
    (∀ (s : BotState) (user channel ts : String)
        (histRes : Except Unit (Option SlackMessage)) (o : AddedOracle),
      mapHas s.deletionTimers ⟨channel, ts⟩ = true →
      (reactionAddedFull s REACTIONS.MERGED user channel ts histRes o).1.deletionTimers =
        s.deletionTimers ∧
      ∀ e ∈ (reactionAddedFull s REACTIONS.MERGED user channel ts histRes o).2,
        isPostEffect e = false ∧ isSetTimeoutEffect e = false) := by
  refine ⟨?_, ?_, ?_, ?_⟩
  · intro s reaction user channel ts histRes o h
    rw [reactionAddedFull_timers]
    rcases addedCore_timers_shape s.deletionTimers
      (guardAdd s.processingReactions ⟨channel, ts⟩) s.myBotId reaction user channel ts
      histRes o with hsh | ⟨v, hsh⟩
    · rw [hsh]; exact h
    · rw [hsh]; exact keysNodup_mapSet _ _ _ h
  · intro s reaction channel ts d h
    rcases reactionRemoved_timers_shape s reaction channel ts d with hsh | hsh
    · rw [hsh]; exact h
    · rw [hsh]; exact keysNodup_mapDelete _ _ h
  · intro s channel ts w o h
    exact keysNodup_mapDelete _ _ h
  · intro s user channel ts histRes o h
    exact resume_merged_abort (reactionAddedStart s channel ts) user channel ts histRes o
      (Or.inr h)

theorem C2_witness :
    mapHas timerState.deletionTimers ⟨"C1", "T1"⟩ = true ∧
    (reactionAddedFull timerState REACTIONS.MERGED "U2" "C1" "T1"
        (Except.ok (some botMsg)) plainOracle).1.deletionTimers =
      timerState.deletionTimers :=
  ⟨by decide,
   (C2_at_most_one_pending_deletion.2.2.2 timerState "U2" "C1" "T1"
     (Except.ok (some botMsg)) plainOracle (by decide)).1⟩

/-- C3: removing the merge-signal reaction while a timer is armed (entry
present, in-flight guard absent) cancels that timer, removes the
PendingDeletion entry, and deletes the warning message; every delete the
handler issues targets the warning message and nothing else, so the
anchor message and thread replies are untouched. -/
theorem C3_removal_cancels_armed_timer (s : BotState) (channel ts w : String)
    (tid : Nat) (d : Except Unit Unit)
    (hguard : (⟨channel, ts⟩ : Key) ∉ s.processingReactions)
    (hget : mapGet s.deletionTimers ⟨channel, ts⟩ = some ⟨tid, some w⟩) :
    (reactionRemoved s REACTIONS.MERGED channel ts d).1.deletionTimers =
      mapDelete s.deletionTimers ⟨channel, ts⟩ ∧
    mapHas (reactionRemoved s REACTIONS.MERGED channel ts d).1.deletionTimers
      ⟨channel, ts⟩ = false ∧
    Effect.clearTimeout tid ∈ (reactionRemoved s REACTIONS.MERGED channel ts d).2 ∧
    Effect.chatDelete channel w ∈ (reactionRemoved s REACTIONS.MERGED channel ts d).2 ∧
    (∀ c2 t2, Effect.chatDelete c2 t2 ∈ (reactionRemoved s REACTIONS.MERGED channel ts d).2 →
      c2 = channel ∧ t2 = w) := by
  unfold reactionRemoved
  rw [if_neg (show ¬ (REACTIONS.MERGED ≠ REACTIONS.MERGED) by decide)]
  dsimp only
  rw [if_neg hguard, hget]
  dsimp only
  cases d with
  | error u =>
    refine ⟨rfl, mapHas_mapDelete _ _, by simp, by simp, ?_⟩
    intro c2 t2 h
    simp only [List.mem_cons, List.not_mem_nil, or_false,
      Effect.chatDelete.injEq] at h
    rcases h with h | h | h
    · exact absurd h (by simp)
    · exact h
    · exact absurd h (by simp)
  | ok u =>
    refine ⟨rfl, mapHas_mapDelete _ _, by simp, by simp, ?_⟩
    intro c2 t2 h
    simp only [List.mem_cons, List.not_mem_nil, or_false,
      Effect.chatDelete.injEq] at h
    rcases h with h | h
    · exact absurd h (by simp)
    · exact h

theorem C3_witness :
    Effect.clearTimeout 5 ∈
      (reactionRemoved timerState REACTIONS.MERGED "C1" "T1" (Except.ok ())).2 ∧
    Effect.chatDelete "C1" "W1" ∈
      (reactionRemoved timerState REACTIONS.MERGED "C1" "T1" (Except.ok ())).2 :=
  ⟨(C3_removal_cancels_armed_timer timerState "C1" "T1" "W1" 5 (Except.ok ())
      (by decide) (by decide)).2.2.1,
   (C3_removal_cancels_armed_timer timerState "C1" "T1" "W1" 5 (Except.ok ())
      (by decide) (by decide)).2.2.2.1⟩

/-- C4: for every reaction_added event on a message item, across every
branch of the handler (missing message, foreign message, each reaction
branch, duplicate timer, and a thrown error in any awaited call), the
in-flight guard entry added at the start is effectively removed exactly
once, and the key is absent from the guard when the pass completes. -/
theorem C4_guard_released_exactly_once (s : BotState) (reaction user channel ts : String)
    (histRes : Except Unit (Option SlackMessage)) (o : AddedOracle) :
    effectiveGuardDeletes
      (reactionAddedFull s reaction user channel ts histRes o).2 ⟨channel, ts⟩ = 1 ∧
    (⟨channel, ts⟩ : Key) ∉
      (reactionAddedFull s reaction user channel ts histRes o).1.processingReactions := by
  have hz := addedCore_effGD_zero s.deletionTimers
    (guardAdd s.processingReactions ⟨channel, ts⟩) s.myBotId reaction user channel ts
    histRes o ⟨channel, ts⟩
  have hmem : (⟨channel, ts⟩ : Key) ∈ guardAdd s.processingReactions ⟨channel, ts⟩ :=
    mem_guardAdd _ _
  have hnot : (⟨channel, ts⟩ : Key) ∉
      guardRemove (guardAdd s.processingReactions ⟨channel, ts⟩) ⟨channel, ts⟩ :=
    not_mem_guardRemove _ _
  unfold reactionAddedFull reactionAddedResume reactionAddedStart
  dsimp only
  split
  · constructor
    · rw [effectiveGuardDeletes_append, hz]
      simp [effectiveGuardDeletes, decide_eq_true hmem, decide_eq_false hnot]
    · exact not_mem_guardRemove _ _
  · constructor
    · rw [effectiveGuardDeletes_append, hz]
      simp [effectiveGuardDeletes, decide_eq_true hmem]
    · exact not_mem_guardRemove _ _

/-- C5: whenever the deferred cleanup task for a key runs, the
PendingDeletion entry for that key is removed from the deletion-timer
map, for every possible outcome of the reactions query, the reply fetch,
the per-reply deletes, and the anchor delete (success or thrown error
alike). -/
theorem C5_cleanup_always_removes_entry (s : BotState) (channel ts : String)
    (warnTs : Option String) (o : CleanupOracle) :
    (cleanupFire s channel ts warnTs o).1.deletionTimers =
      mapDelete s.deletionTimers ⟨channel, ts⟩ ∧
    mapHas (cleanupFire s channel ts warnTs o).1.deletionTimers ⟨channel, ts⟩ = false :=
  ⟨rfl, mapHas_mapDelete _ _⟩

/-- C6: when the deferred cleanup task fires and the re-queried
reactions no longer include the merge signal, the task performs exactly
the reactions query plus an optional best-effort delete of the warning
message: the reply list is never fetched and every delete targets the
warning message, so the anchor and thread replies survive. -/
theorem C6_cancelled_cleanup_frame (s : BotState) (channel ts : String)
    (warnTs : Option String) (o : CleanupOracle) (rs : List ReactionEntry)
    (hres : o.reactionsRes = Except.ok rs)
    (hno : rs.any (fun r => decide (r.name = REACTIONS.MERGED)) = false) :
    (cleanupFire s channel ts warnTs o).2 =
      Effect.getReactions channel ts ::
        (match warnTs with
         | some w => [Effect.chatDelete channel w]
         | none => []) ∧
    (∀ c2 t2, Effect.fetchReplies c2 t2 ∉ (cleanupFire s channel ts warnTs o).2) ∧
    (∀ c2 t2, Effect.chatDelete c2 t2 ∈ (cleanupFire s channel ts warnTs o).2 →
      c2 = channel ∧ warnTs = some t2) := by
  have htr : (cleanupFire s channel ts warnTs o).2 =
      Effect.getReactions channel ts ::
        (match warnTs with
         | some w => [Effect.chatDelete channel w]
         | none => []) := by
    unfold cleanupFire cleanupBody
    rw [hres]
    dsimp only
    rw [hno]
    rw [if_pos rfl]
    cases warnTs <;> rfl
  refine ⟨htr, ?_, ?_⟩
  · intro c2 t2 h
    rw [htr] at h
    cases warnTs <;> simp at h
  · intro c2 t2 h
    rw [htr] at h
    cases warnTs with
    | none => simp at h
    | some w =>
      simp only [List.mem_cons, List.not_mem_nil, or_false,
        Effect.chatDelete.injEq] at h
      rcases h with h | h
      · exact absurd h (by simp)
      · exact ⟨h.1, by rw [h.2]⟩

theorem C6_witness :
    (cleanupFire botState "C1" "T1" (some "W1") quietCleanupOracle).2 =
      [Effect.getReactions "C1" "T1", Effect.chatDelete "C1" "W1"] :=
  (C6_cancelled_cleanup_frame botState "C1" "T1" (some "W1") quietCleanupOracle
    [⟨"thumbsup"⟩] rfl (by decide)).1

/-- C7: any casing of the complexity label medium renders to the one
fixed complexity string, and parsing the announcement text that the /pr
command composes for author U123 with that rendering recovers exactly
U123. -/
theorem C7_roundtrip_author_complexity (s : String) (h : lowerStr s = "medium") :
    formatComplexity (some s) = "🟨 *Medium*" ∧
    getAuthorIdFromText (prAnnouncementText "https://github.com/x/y/pull/1" "U123"
      (formatComplexity (some s))) = some "U123" := by
  have hs : ¬ s = "" := by
    intro he
    subst he
    exact absurd h (by decide)
  have hf : formatComplexity (some s) = "🟨 *Medium*" := by
    simp only [formatComplexity]
    rw [if_neg hs, h]
    rfl
  exact ⟨hf, by rw [hf]; decide⟩

theorem C7_witness :
    lowerStr "MEDIUM" = "medium" ∧
    (formatComplexity (some "MEDIUM") = "🟨 *Medium*" ∧
      getAuthorIdFromText (prAnnouncementText "https://github.com/x/y/pull/1" "U123"
        (formatComplexity (some "MEDIUM"))) = some "U123") :=
  ⟨by decide, C7_roundtrip_author_complexity "MEDIUM" (by decide)⟩

/-- C8: a comment-signal reaction added by user U2 on a bot-authored
message whose text yields author U1 makes the handler post exactly one
threaded reply, and that reply text mentions both U1 and U2. -/
theorem C8_comment_reaction_single_reply (s : BotState) (channel ts : String)
    (m : SlackMessage) (o : AddedOracle)
    (hbot : m.bot_id = s.myBotId)
    (hauth : getAuthorIdFromText m.text = some "U1") :
    (reactionAddedFull s REACTIONS.COMMENT "U2" channel ts (Except.ok (some m)) o).2.filter
        isPostEffect =
      [Effect.postMessage channel (some ts) (MESSAGES.COMMENT_OWN "U1" "U2")] ∧
    containsSubstr (MESSAGES.COMMENT_OWN "U1" "U2") "<@U1>" = true ∧
    containsSubstr (MESSAGES.COMMENT_OWN "U1" "U2") "<@U2>" = true := by
  have hcore : addedCore s.deletionTimers (guardAdd s.processingReactions ⟨channel, ts⟩)
      s.myBotId REACTIONS.COMMENT "U2" channel ts (Except.ok (some m)) o =
      (s.deletionTimers,
       [Effect.fetchHistory channel ts,
        Effect.postMessage channel (some ts) (MESSAGES.COMMENT_OWN "U1" "U2")],
       isError o.post) := by
    simp only [addedCore]
    rw [if_neg (fun hne => hne hbot)]
    rw [if_pos trivial, hauth]
    rfl
  refine ⟨?_, by decide, by decide⟩
  unfold reactionAddedFull reactionAddedResume reactionAddedStart
  dsimp only
  rw [hcore]
  dsimp only
  cases o.post with
  | error u => simp [isError, isPostEffect]
  | ok v => simp [isError, isPostEffect]

theorem C8_witness :
    (reactionAddedFull botState REACTIONS.COMMENT "U2" "C1" "T1"
        (Except.ok (some botMsg)) plainOracle).2.filter isPostEffect =
      [Effect.postMessage "C1" (some "T1") (MESSAGES.COMMENT_OWN "U1" "U2")] :=
  (C8_comment_reaction_single_reply botState "C1" "T1" botMsg plainOracle rfl
    (by decide)).1

/-- C9 counterexample: both secrets are present in the environment (the
bot token is set to the empty string), yet startup does not proceed:
presence alone does not imply the process starts. -/
theorem C9_counterexample :
    (some "" : Option String).isSome = true ∧
    (some "secret" : Option String).isSome = true ∧
    startupProceeds (some "") (some "secret") = false := by decide

/-- C9 (amended): if either required secret is absent from the
environment or present as the empty string, the process refuses to
start; if both are present and non-empty, startup proceeds. -/
theorem C9_amended_startup_guard (token signing : Option String) :
    ((token = none ∨ token = some "" ∨ signing = none ∨ signing = some "") →
      startupProceeds token signing = false) ∧
    (∀ a b, token = some a → signing = some b → ¬ a = "" → ¬ b = "" →
      startupProceeds token signing = true) := by
  constructor
  · intro h
    rcases h with rfl | rfl | rfl | rfl <;>
      simp [startupProceeds, startupExits, envTruthy]
  · intro a b ha hb hna hnb
    subst ha
    subst hb
    simp [startupProceeds, startupExits, envTruthy, hna, hnb]

theorem C9_witness :
    startupProceeds none (some "x") = false ∧
    startupProceeds (some "t") (some "s2") = true :=
  ⟨(C9_amended_startup_guard none (some "x")).1 (Or.inl rfl),
   (C9_amended_startup_guard (some "t") (some "s2")).2 "t" "s2" rfl rfl
     (by decide) (by decide)⟩

/-- C10 counterexample: with the startup identity fetch failed (recorded
identity undefined) and a message that has no bot id at all (not
authored by any bot), the comment-reaction handler still posts a reply:
reaction actions are not honored only on this bot's messages in that
edge case. -/
theorem C10_counterexample :
    undefinedIdState.myBotId = none ∧ humanMessage.bot_id = none ∧
    (∃ e ∈ (reactionAddedFull undefinedIdState REACTIONS.COMMENT "U2" "C1" "T1"
        (Except.ok (some humanMessage)) plainOracle).2, isPostEffect e = true) := by
  refine ⟨rfl, rfl, ?_⟩
  decide

/-- C10 (amended): when the fetched message is missing or its bot id
differs from the recorded identity, the handler posts nothing, schedules
nothing, and leaves the timer map unchanged; consequently, whenever the
recorded identity is defined, any post or timer implies the message
carries exactly that bot id.  (When the recorded identity is undefined,
messages without a bot id pass the check, so the only-own-messages
guarantee does not extend to that edge case.) -/
theorem C10_amended_identity_guard :
    (∀ (s : BotState) (reaction user channel ts : String) (o : AddedOracle),
      (reactionAddedFull s reaction user channel ts (Except.ok none) o).1.deletionTimers =
        s.deletionTimers ∧
      ∀ e ∈ (reactionAddedFull s reaction user channel ts (Except.ok none) o).2,
        isPostEffect e = false ∧ isSetTimeoutEffect e = false) ∧
    (∀ (s : BotState) (reaction user channel ts : String) (m : SlackMessage)
        (o : AddedOracle),
      m.bot_id ≠ s.myBotId →
      (reactionAddedFull s reaction user channel ts
          (Except.ok (some m)) o).1.deletionTimers = s.deletionTimers ∧
      ∀ e ∈ (reactionAddedFull s reaction user channel ts (Except.ok (some m)) o).2,
        isPostEffect e = false ∧ isSetTimeoutEffect e = false) ∧
    (∀ (s : BotState) (reaction user channel ts : String) (m : SlackMessage)
        (o : AddedOracle) (b : String),
      s.myBotId = some b →
      (∃ e ∈ (reactionAddedFull s reaction user channel ts (Except.ok (some m)) o).2,
        isPostEffect e = true ∨ isSetTimeoutEffect e = true) →
      m.bot_id = some b) := by
  have part1 : ∀ (s : BotState) (reaction user channel ts : String) (o : AddedOracle),
      (reactionAddedFull s reaction user channel ts (Except.ok none) o).1.deletionTimers =
        s.deletionTimers ∧
      ∀ e ∈ (reactionAddedFull s reaction user channel ts (Except.ok none) o).2,
        isPostEffect e = false ∧ isSetTimeoutEffect e = false := by
    intro s reaction user channel ts o
    exact resume_of_core_noop (reactionAddedStart s channel ts) reaction user channel ts
      (Except.ok none) o
      (addedCore_noMessage _ _ _ reaction user channel ts o)
  have part2 : ∀ (s : BotState) (reaction user channel ts : String) (m : SlackMessage)
      (o : AddedOracle), m.bot_id ≠ s.myBotId →
      (reactionAddedFull s reaction user channel ts
          (Except.ok (some m)) o).1.deletionTimers = s.deletionTimers ∧
      ∀ e ∈ (reactionAddedFull s reaction user channel ts (Except.ok (some m)) o).2,
        isPostEffect e = false ∧ isSetTimeoutEffect e = false := by
    intro s reaction user channel ts m o hb
    exact resume_of_core_noop (reactionAddedStart s channel ts) reaction user channel ts
      (Except.ok (some m)) o
      (addedCore_botMismatch _ _ _ reaction user channel ts m o hb)
  refine ⟨part1, part2, ?_⟩
  intro s reaction user channel ts m o b hb hex
  by_cases hmb : m.bot_id = s.myBotId
  · rw [hmb, hb]
  · obtain ⟨e, he, hpe⟩ := hex
    have hfalse := (part2 s reaction user channel ts m o hmb).2 e he
    rcases hpe with hpe | hpe
    · rw [hfalse.1] at hpe
      exact absurd hpe (by decide)
    · rw [hfalse.2] at hpe
      exact absurd hpe (by decide)

theorem C10_witness :
    (reactionAddedFull botState REACTIONS.COMMENT "U2" "C1" "T1"
        (Except.ok (some otherBotMsg)) plainOracle).1.deletionTimers =
      botState.deletionTimers :=
  (C10_amended_identity_guard.2.1 botState REACTIONS.COMMENT "U2" "C1" "T1"
    otherBotMsg plainOracle (by decide)).1
